import Mathlib

set_option maxHeartbeats 1000000
set_option maxRecDepth 8000

/-! Shallow embedding of scripts/quality_score.py.

Python strings are modelled as lists of characters; Python helpers such as
str.split, str.strip, str.count, substring containment and the concrete
regular expressions used by the script are modelled by the executable
functions below.  External effects (subprocess probes, file existence,
file contents) are passed in as explicit parameters. -/

/-- Python whitespace as used by str.strip / str.lstrip (ASCII range). -/
def isSpaceCh (c : Char) : Bool :=
  c = ' ' || c = '\t' || c = '\n' || c = '\r' || c = '\x0b' || c = '\x0c'

/-- Python s.split(sep) for a one-character separator sep. -/
def pySplitCh (sep : Char) : List Char → List (List Char)
  | [] => [[]]
  | c :: cs =>
    if c = sep then [] :: pySplitCh sep cs
    else
      match pySplitCh sep cs with
      | [] => [[c]]
      | l :: ls => (c :: l) :: ls

/-- Python s.lstrip(). -/
def pyLStrip (l : List Char) : List Char := l.dropWhile isSpaceCh

/-- Python s.strip(). -/
def pyStrip (l : List Char) : List Char :=
  ((l.dropWhile isSpaceCh).reverse.dropWhile isSpaceCh).reverse

/-- Python substring containment: pat in s (for nonempty pat). -/
def hasSub (pat : List Char) : List Char → Bool
  | [] => pat.isEmpty
  | c :: cs => pat.isPrefixOf (c :: cs) || hasSub pat cs

/-- Kernel of countSub: fuelled so that it computes by rfl. -/
def countSubAux (pat : List Char) : Nat → List Char → Nat
  | 0, _ => 0
  | _, [] => 0
  | fuel + 1, c :: cs =>
    if pat.isPrefixOf (c :: cs) then
      1 + countSubAux pat fuel (List.drop pat.length (c :: cs))
    else
      countSubAux pat fuel cs

/-- Python s.count(sub): non-overlapping occurrences, scanned left to right. -/
def countSub (pat l : List Char) : Nat := countSubAux pat l.length l

/-- Split at the first occurrence of pat: some (before, after) when found. -/
def splitFirst (pat : List Char) : List Char → Option (List Char × List Char)
  | [] => if pat.isEmpty then some ([], []) else none
  | c :: cs =>
    if pat.isPrefixOf (c :: cs) then some ([], List.drop pat.length (c :: cs))
    else
      match splitFirst pat cs with
      | some (pre, post) => some (c :: pre, post)
      | none => none

/-- Python s.split(sub)[1]: the segment between the first occurrence of sub
and the next occurrence after it (total, used under a count-at-least-two
guard exactly as in the source). -/
def splitIdx1 (pat l : List Char) : List Char :=
  match splitFirst pat l with
  | none => l
  | some (_, rest) =>
    match splitFirst pat rest with
    | none => rest
    | some (mid, _) => mid

/-- line.split('%')[0] if '%' in line else line (both equal the longest
percent-free leading segment). -/
def commentStrip (l : List Char) : List Char := l.takeWhile (fun c => c != '%')

/- ==========================================================================
   IssueDetector.check_equation_overflow
   ========================================================================== -/

inductive MathDelim
  | fence
  | env
deriving DecidableEq, Repr

structure EqState where
  in_math : Bool
  math_delim : Option MathDelim
  math_start : Nat
  overflows : List Nat
deriving DecidableEq, Repr

def ddTok : List Char := "$$".data

def rbr : Char := '\x7d'

def starCh : Char := '*'

def beginEnvKw : List Char := "\\begin\x7b".data

def endEnvKw : List Char := "\\end\x7b".data

def mathEnvNames : List (List Char) :=
  ["equation".data, "align".data, "gather".data, "multline".data, "eqnarray".data]

/-- re.match of \begin or \end over (equation|align|gather|multline|eqnarray)
with an optional star, anchored at the start of the stripped line. -/
def matchMathEnv (kw : List Char) (l : List Char) : Bool :=
  mathEnvNames.any (fun n =>
    (kw ++ n ++ [rbr]).isPrefixOf l || (kw ++ n ++ [starCh, rbr]).isPrefixOf l)

def mathThreshold : Nat := 120

/-- One iteration of check_equation_overflow's loop (source lines 151-194). -/
def eqStep (st : EqState) (i : Nat) (line : List Char) : EqState :=
  let stripped := pyStrip line
  if hasSub ddTok stripped && !(st.math_delim == some MathDelim.env) then
    if !st.in_math then
      if 2 ≤ countSub ddTok stripped then
        { in_math := false, math_delim := none, math_start := i,
          overflows := st.overflows ++
            (if mathThreshold < (pyStrip (splitIdx1 ddTok stripped)).length then [i] else []) }
      else
        { in_math := true, math_delim := some MathDelim.fence, math_start := i,
          overflows := st.overflows }
    else
      { st with in_math := false, math_delim := none }
  else if matchMathEnv beginEnvKw stripped && !st.in_math then
    { in_math := true, math_delim := some MathDelim.env, math_start := i,
      overflows := st.overflows }
  else if matchMathEnv endEnvKw stripped then
    { st with in_math := false, math_delim := none }
  else if st.in_math then
    if mathThreshold < (pyStrip (commentStrip line)).length then
      { st with overflows := st.overflows ++ [i] }
    else st
  else st

def eqScan : Nat → EqState → List (List Char) → EqState
  | _, st, [] => st
  | i, st, l :: ls => eqScan (i + 1) (eqStep st i l) ls

def check_equation_overflow (content : List Char) : List Nat :=
  (eqScan 1 ⟨false, none, 0, []⟩ (pySplitCh '\n' content)).overflows

/- ==========================================================================
   IssueDetector.check_latex_syntax
   ========================================================================== -/

/-- Python \w for the ASCII inputs we model: letters, digits, underscore. -/
def isWordCh (c : Char) : Bool := c.isAlphanum || c = '_'

/-- re.finditer(kw-then-braced-word, s): the captured names in scan order,
resuming after each match (kw is "\begin-open-brace" or "\end-open-brace").
Fuelled so that it computes by rfl. -/
def envTokensAux (kw : List Char) : Nat → List Char → List (List Char)
  | 0, _ => []
  | _, [] => []
  | fuel + 1, c :: cs =>
    if kw.isPrefixOf (c :: cs) then
      let rest := List.drop kw.length (c :: cs)
      let name := rest.takeWhile isWordCh
      match name, rest.dropWhile isWordCh with
      | _ :: _, d :: tail =>
        if d = rbr then name :: envTokensAux kw fuel tail
        else envTokensAux kw fuel cs
      | _, _ => envTokensAux kw fuel cs
    else envTokensAux kw fuel cs

def envTokens (kw l : List Char) : List (List Char) := envTokensAux kw l.length l

/-- The diagnostics of check_latex_syntax, with the data carried by the
formatted description strings of the source made structural. -/
inductive LatexDiag
  | mismatch (line : Nat) (found : List Char) (expected : List Char) (openedAt : Nat)
  | orphanClose (line : Nat) (found : List Char)
  | unclosed (line : Nat) (name : List Char)
deriving DecidableEq, Repr

structure LatexState where
  env_stack : List (List Char × Nat)
  diags : List LatexDiag
deriving DecidableEq, Repr

/-- Handling of one end-token occurrence (source lines 315-330). -/
def handleEnd (st : LatexState) (i : Nat) (name : List Char) : LatexState :=
  match st.env_stack.getLast? with
  | some (top, openLine) =>
    if top = name then
      { st with env_stack := st.env_stack.dropLast }
    else
      { st with diags := st.diags ++ [LatexDiag.mismatch i name top openLine] }
  | none => { st with diags := st.diags ++ [LatexDiag.orphanClose i name] }

def beginAnyKw : List Char := "\\begin\x7b".data

def endAnyKw : List Char := "\\end\x7b".data

/-- One line of check_latex_syntax's loop: strip the comment, push every
begin occurrence, then handle every end occurrence. -/
def latexLineStep (st : LatexState) (i : Nat) (line : List Char) : LatexState :=
  let stripped := commentStrip line
  let st1 : LatexState :=
    { st with env_stack :=
        st.env_stack ++ (envTokens beginAnyKw stripped).map (fun n => (n, i)) }
  (envTokens endAnyKw stripped).foldl (fun s n => handleEnd s i n) st1

def latexScan : Nat → LatexState → List (List Char) → LatexState
  | _, st, [] => st
  | i, st, l :: ls => latexScan (i + 1) (latexLineStep st i l) ls

def check_latex_syntax (content : List Char) : List LatexDiag :=
  let st := latexScan 1 ⟨[], []⟩ (pySplitCh '\n' content)
  st.diags ++ st.env_stack.map (fun e => LatexDiag.unclosed e.2 e.1)

/- ==========================================================================
   IssueDetector.check_overfull_hbox_risk
   ========================================================================== -/

structure HboxState where
  in_frame : Bool
  issues : List Nat
deriving DecidableEq, Repr

def beginFrameTok : List Char := "\\begin\x7bframe\x7d".data

def endFrameTok : List Char := "\\end\x7bframe\x7d".data

/-- The frame-flag update of one line (the if/elif on source lines 356-359). -/
def frameFlagUpd (f : Bool) (stripped : List Char) : Bool :=
  if hasSub beginFrameTok stripped then true
  else if hasSub endFrameTok stripped then false
  else f

def allowListWords : List (List Char) :=
  ["includegraphics".data, "input".data, "bibliography".data, "usepackage".data]

/-- re.match(whitespace-then-backslash-then-allowlisted-word, stripped). -/
def allowListMatch (stripped : List Char) : Bool :=
  allowListWords.any (fun w => ('\\' :: w).isPrefixOf (stripped.dropWhile isSpaceCh))

def percentCh : Char := '%'

/-- One line of check_overfull_hbox_risk's loop (source lines 352-370). -/
def hboxStep (st : HboxState) (i : Nat) (line : List Char) : HboxState :=
  let stripped := commentStrip line
  let f1 := frameFlagUpd st.in_frame stripped
  if f1 && decide (mathThreshold < (pyStrip stripped).length) then
    if (pyStrip stripped).head? = some percentCh then { st with in_frame := f1 }
    else if allowListMatch stripped then { st with in_frame := f1 }
    else { in_frame := f1, issues := st.issues ++ [i] }
  else { st with in_frame := f1 }

def hboxScan : Nat → HboxState → List (List Char) → HboxState
  | _, st, [] => st
  | i, st, l :: ls => hboxScan (i + 1) (hboxStep st i l) ls

def check_overfull_hbox_risk (content : List Char) : List Nat :=
  (hboxScan 1 ⟨false, []⟩ (pySplitCh '\n' content)).issues

/- ==========================================================================
   IssueDetector.check_broken_citations / check_quarto_citations
   ========================================================================== -/

def citeCmdTok : List Char := "\\cite".data

def isLowerAZ (c : Char) : Bool := 'a' ≤ c && c ≤ 'z'

def lbrCh : Char := '\x7b'

def commaCh : Char := ','

/-- re.finditer of backslash-cite, lowercase-run, braced non-empty group:
the captured groups in scan order (fuelled). -/
def citeGroupsAux : Nat → List Char → List (List Char)
  | 0, _ => []
  | _, [] => []
  | fuel + 1, c :: cs =>
    if citeCmdTok.isPrefixOf (c :: cs) then
      match (List.drop citeCmdTok.length (c :: cs)).dropWhile isLowerAZ with
      | d :: r3 =>
        if d = lbrCh then
          match r3.takeWhile (fun x => x != rbr), r3.dropWhile (fun x => x != rbr) with
          | grp@(_ :: _), _ :: tail => grp :: citeGroupsAux fuel tail
          | _, _ => citeGroupsAux fuel cs
        else citeGroupsAux fuel cs
      | [] => citeGroupsAux fuel cs
    else citeGroupsAux fuel cs

def citeGroups (l : List Char) : List (List Char) := citeGroupsAux l.length l

/-- The cited-key set of the backslash-cite pass: every group is split on
commas and each key stripped; the set is a deduplicated list. -/
def latexCitedKeys (content : List Char) : List (List Char) :=
  (((citeGroups content).map (fun g => (pySplitCh commaCh g).map pyStrip)).flatten).dedup

def atCh : Char := '@'

/-- re.findall of at-sign, word-run, open-brace, non-comma-run, comma over a
bibliography text: the entry keys in scan order (fuelled). -/
def bibKeysAux : Nat → List Char → List (List Char)
  | 0, _ => []
  | _, [] => []
  | fuel + 1, c :: cs =>
    if c = atCh then
      match cs.takeWhile isWordCh, cs.dropWhile isWordCh with
      | _ :: _, d :: r2 =>
        if d = lbrCh then
          match r2.takeWhile (fun x => x != commaCh), r2.dropWhile (fun x => x != commaCh) with
          | key@(_ :: _), _ :: tail => key :: bibKeysAux fuel tail
          | _, _ => bibKeysAux fuel cs
        else bibKeysAux fuel cs
      | _, _ => bibKeysAux fuel cs
    else bibKeysAux fuel cs

def bibKeys (b : List Char) : List (List Char) := bibKeysAux b.length b

/-- check_broken_citations: cited keys absent from the bibliography key set;
the whole cited set when the bibliography file does not exist (bib = none). -/
def check_broken_citations (content : List Char) (bib : Option (List Char)) :
    List (List Char) :=
  let cited := latexCitedKeys content
  match bib with
  | none => cited
  | some b => cited.filter (fun k => !((bibKeys b).contains k))

/-- The citation-key character class of the quarto patterns. -/
def isCiteKeyCh (c : Char) : Bool :=
  isWordCh c || c = ':' || c = '.' || c = '#' || c = '$' || c = '%' || c = '&' ||
  c = '-' || c = '+' || c = '?' || c = '<' || c = '>' || c = '~' || c = '/'

/-- re.finditer of at-sign then key-class-run over a bracket group's content
(pattern 1's inner extraction, fuelled). -/
def atKeysAux : Nat → List Char → List (List Char)
  | 0, _ => []
  | _, [] => []
  | fuel + 1, c :: cs =>
    if c = atCh then
      match cs.takeWhile isCiteKeyCh with
      | [] => atKeysAux fuel cs
      | k => k :: atKeysAux fuel (cs.dropWhile isCiteKeyCh)
    else atKeysAux fuel cs

def atKeys (l : List Char) : List (List Char) := atKeysAux l.length l

def lsqCh : Char := '['

def rsqCh : Char := ']'

/-- re.finditer of the bracket pattern (open bracket, non-bracket run holding
an at-sign with at least one character after it, close bracket): the captured
groups in scan order (fuelled). -/
def bracketGroupsAux : Nat → List Char → List (List Char)
  | 0, _ => []
  | _, [] => []
  | fuel + 1, c :: cs =>
    if c = lsqCh then
      match cs.dropWhile (fun x => x != rsqCh) with
      | _ :: tail =>
        let grp := cs.takeWhile (fun x => x != rsqCh)
        if grp.dropLast.contains atCh then grp :: bracketGroupsAux fuel tail
        else bracketGroupsAux fuel cs
      | [] => bracketGroupsAux fuel cs
    else bracketGroupsAux fuel cs

def bracketGroups (l : List Char) : List (List Char) := bracketGroupsAux l.length l

/-- The standalone pattern: at-sign not preceded by a dot or word character
(prev is the character just before the scan position), then a key-class run;
non-overlapping matches in scan order (fuelled). -/
def standaloneKeysAux : Nat → Option Char → List Char → List (List Char)
  | 0, _, _ => []
  | _, _, [] => []
  | fuel + 1, prev, c :: cs =>
    if c = atCh && !(match prev with
                     | some p => p = '.' || isWordCh p
                     | none => false) then
      match cs.takeWhile isCiteKeyCh with
      | [] => standaloneKeysAux fuel (some c) cs
      | k => k :: standaloneKeysAux fuel (some (k.getLastD c)) (cs.dropWhile isCiteKeyCh)
    else standaloneKeysAux fuel (some c) cs

def standaloneKeys (l : List Char) : List (List Char) :=
  standaloneKeysAux l.length none l

def quartoReservedKeys : List (List Char) :=
  ["fig".data, "tbl".data, "sec".data, "eq".data, "lst".data]

/-- The standalone-pass exclusions: keys starting with an open brace (the
key-class cannot produce one, kept for fidelity) and reserved directives. -/
def standaloneExcluded (k : List Char) : Bool :=
  k.head? = some lbrCh || quartoReservedKeys.contains k

/-- The quarto cited-key set: bracket-pass keys unioned with filtered
standalone-pass keys, deduplicated. -/
def quartoCitedKeys (content : List Char) : List (List Char) :=
  (((bracketGroups content).map atKeys).flatten ++
    (standaloneKeys content).filter (fun k => !(standaloneExcluded k))).dedup

/-- check_quarto_citations (source lines 375-411). -/
def check_quarto_citations (content : List Char) (bib : Option (List Char)) :
    List (List Char) :=
  let cited := quartoCitedKeys content
  if cited.isEmpty then []
  else
    match bib with
    | none => cited
    | some b => cited.filter (fun k => !((bibKeys b).contains k))

/- ==========================================================================
   Heuristic checks: hardcoded paths, wildcard imports, missing docstring,
   plotly widget counting
   ========================================================================== -/

def dqCh : Char := '"'

def sqCh : Char := Char.ofNat 39

def isQuoteCh (c : Char) : Bool := c = dqCh || c = sqCh

def isSlashCh (c : Char) : Bool := c = '/' || c = '\\'

def isAsciiLetter (c : Char) : Bool := ('A' ≤ c && c ≤ 'Z') || ('a' ≤ c && c ≤ 'z')

/-- re.search of quote-then-slash, or quote-then-drive-letter-colon-slash. -/
def hardPathMatch : List Char → Bool
  | [] => false
  | c :: cs =>
    (isQuoteCh c && (match cs with
                     | d :: _ => isSlashCh d
                     | [] => false)) ||
    (isQuoteCh c && (match cs with
                     | d :: e :: f :: _ => isAsciiLetter d && e = ':' && isSlashCh f
                     | _ => false)) ||
    hardPathMatch cs

def pathAllowTokens : List (List Char) :=
  ["http:".data, "https:".data, "file://".data, "/tmp/".data]

/-- check_hardcoded_paths (source lines 252-262). -/
def check_hardcoded_paths (content : List Char) : List Nat :=
  (List.enumFrom 1 (pySplitCh '\n' content)).filterMap (fun p =>
    if hardPathMatch p.2 && !(pathAllowTokens.any (fun t => hasSub t p.2)) then
      some p.1
    else none)

def fromTok : List Char := "from".data

def importTok : List Char := "import".data

/-- A re.match component: a literal. -/
def dropLit (lit l : List Char) : Option (List Char) :=
  if lit.isPrefixOf l then some (l.drop lit.length) else none

/-- A re.match component: one-or-more characters of a class, greedily. -/
def dropPlus (p : Char → Bool) : List Char → Option (List Char)
  | [] => none
  | c :: cs => if p c then some ((c :: cs).dropWhile p) else none

/-- re.match of from, spaces, non-spaces, spaces, import, spaces, star. -/
def wildcardMatch (l : List Char) : Bool :=
  match ((((dropLit fromTok l).bind (dropPlus isSpaceCh)).bind
      (dropPlus (fun c => !isSpaceCh c))).bind (dropPlus isSpaceCh)).bind
      (fun r => (dropLit importTok r).bind (dropPlus isSpaceCh)) with
  | some (c :: _) => c = starCh
  | _ => false

/-- check_wildcard_imports (source lines 276-283). -/
def check_wildcard_imports (content : List Char) : List Nat :=
  (List.enumFrom 1 (pySplitCh '\n' content)).filterMap (fun p =>
    if wildcardMatch (pyStrip p.2) then some p.1 else none)

def tripleDQ : List Char := [dqCh, dqCh, dqCh]

def tripleSQ : List Char := [sqCh, sqCh, sqCh]

def shebangTok : List Char := "#!".data

/-- check_missing_docstring (source lines 286-290). -/
def check_missing_docstring (content : List Char) : Bool :=
  let s := pyLStrip content
  !(tripleDQ.isPrefixOf s || tripleSQ.isPrefixOf s || shebangTok.isPrefixOf s)

def htmlwidgetTok : List Char := "htmlwidget".data

def plotlyCallTok : List Char := "plotly::plot_ly".data

/- ==========================================================================
   QualityScorer
   ========================================================================== -/

inductive IssueType
  | compilation_failure
  | equation_overflow
  | broken_citation
  | missing_plotly_chart
  | syntax_error
  | hardcoded_path
  | missing_import
  | missing_set_seed
  | missing_seed
  | missing_docstring
  | undefined_citation
  | overfull_hbox
deriving DecidableEq, Repr

/-- One recorded issue dict; the formatted description and details strings
are not modelled, the type tag and the point value are. -/
structure Issue where
  type : IssueType
  points : Nat
deriving DecidableEq, Repr

structure ScorerState where
  score : Int
  critical : List Issue
  major : List Issue
  minor : List Issue
  auto_fail : Bool
deriving DecidableEq, Repr

def initScorer : ScorerState :=
  { score := 100, critical := [], major := [], minor := [], auto_fail := false }

inductive Status
  | FAIL
  | EXCELLENCE
  | PR_READY
  | COMMIT_READY
  | BLOCKED
deriving DecidableEq, Repr

def commitThreshold : Int := 80

def prThreshold : Int := 90

def excellenceThreshold : Int := 95

structure Report where
  score : Int
  status : Status
  auto_fail : Bool
  critical : List Issue
  major : List Issue
  minor : List Issue
deriving DecidableEq, Repr

/-- QualityScorer._generate_report (counts are the lengths of the lists). -/
def generate_report (st : ScorerState) : Report :=
  { score := st.score,
    status :=
      if st.auto_fail then Status.FAIL
      else if excellenceThreshold ≤ st.score then Status.EXCELLENCE
      else if prThreshold ≤ st.score then Status.PR_READY
      else if commitThreshold ≤ st.score then Status.COMMIT_READY
      else Status.BLOCKED,
    auto_fail := st.auto_fail,
    critical := st.critical, major := st.major, minor := st.minor }

/-- A source loop appending critical issues, deducting each one's points. -/
def deductCritical (st : ScorerState) (iss : List Issue) : ScorerState :=
  iss.foldl (fun s i =>
    { s with critical := s.critical ++ [i], score := s.score - i.points }) st

/-- A source loop appending major issues, deducting each one's points. -/
def deductMajor (st : ScorerState) (iss : List Issue) : ScorerState :=
  iss.foldl (fun s i =>
    { s with major := s.major ++ [i], score := s.score - i.points }) st

/-- A source loop appending minor issues, deducting each one's points. -/
def deductMinor (st : ScorerState) (iss : List Issue) : ScorerState :=
  iss.foldl (fun s i =>
    { s with minor := s.minor ++ [i], score := s.score - i.points }) st

/-- An auto-fail early return: one critical issue, auto_fail, score zero. -/
def autoFailReport (t : IssueType) : Report :=
  generate_report
    { score := 0, critical := [⟨t, 100⟩], major := [], minor := [],
      auto_fail := true }

/-- score_quarto's state after the equation-overflow and citation loops. -/
def quartoSt2 (content : List Char) (bib : Option (List Char)) : ScorerState :=
  deductCritical
    (deductCritical initScorer
      ((check_equation_overflow content).map (fun _ => ⟨IssueType.equation_overflow, 20⟩)))
    (((check_broken_citations content bib ++ check_quarto_citations content bib).dedup).map
      (fun _ => ⟨IssueType.broken_citation, 15⟩))

/-- score_quarto's state after the optional plotly-widget check. -/
def quartoSt3 (content : List Char) (bib : Option (List Char))
    (html : Option (List Char)) : ScorerState :=
  match html with
  | none => quartoSt2 content bib
  | some h =>
    if 0 < countSub plotlyCallTok content &&
        countSub htmlwidgetTok h < countSub plotlyCallTok content then
      deductCritical (quartoSt2 content bib)
        [⟨IssueType.missing_plotly_chart,
          10 * (countSub plotlyCallTok content - countSub htmlwidgetTok h)⟩]
    else quartoSt2 content bib

/-- QualityScorer.score_quarto.  The compilation probe's verdict, the
bibliography text (none when the file is absent) and the rendered html text
(none when the file is absent) are parameters; everything else follows the
source (lines 431-492). -/
def score_quarto (compiles : Bool) (content : List Char) (bib : Option (List Char))
    (html : Option (List Char)) : Report :=
  if !compiles then autoFailReport IssueType.compilation_failure
  else
    generate_report
      { quartoSt3 content bib html with
        score := max 0 (quartoSt3 content bib html).score }

def rRandomTokens : List (List Char) :=
  ["rnorm".data, "runif".data, "sample".data, "rbinom".data, "rnbinom".data]

def rSeedTok : List Char := "set.seed".data

/-- score_r_script's state after the hardcoded-path loop. -/
def rScriptSt1 (content : List Char) : ScorerState :=
  deductCritical initScorer
    ((check_hardcoded_paths content).map (fun _ => ⟨IssueType.hardcoded_path, 20⟩))

/-- score_r_script's state after the set.seed check. -/
def rScriptSt2 (content : List Char) : ScorerState :=
  if rRandomTokens.any (fun t => hasSub t content) && !hasSub rSeedTok content then
    deductMajor (rScriptSt1 content) [⟨IssueType.missing_set_seed, 10⟩]
  else rScriptSt1 content

/-- QualityScorer.score_r_script; the Rscript parse probe's verdict is a
parameter (source lines 494-535). -/
def score_r_script (syntaxOk : Bool) (content : List Char) : Report :=
  if !syntaxOk then autoFailReport IssueType.syntax_error
  else
    generate_report
      { rScriptSt2 content with score := max 0 (rScriptSt2 content).score }

def pyRandomTokens : List (List Char) :=
  ["np.random".data, "random.".data, "torch.manual_seed".data,
   "sklearn".data, "sample(".data, "shuffle(".data]

def pySeedTokens : List (List Char) :=
  ["random.seed".data, "np.random.seed".data, "torch.manual_seed".data,
   "random_state=".data]

/-- score_python_script's state after the path and wildcard-import loops. -/
def pyScriptSt2 (content : List Char) : ScorerState :=
  deductCritical
    (deductCritical initScorer
      ((check_hardcoded_paths content).map (fun _ => ⟨IssueType.hardcoded_path, 20⟩)))
    ((check_wildcard_imports content).map (fun _ => ⟨IssueType.missing_import, 10⟩))

/-- score_python_script's state after the seed check. -/
def pyScriptSt3 (content : List Char) : ScorerState :=
  if pyRandomTokens.any (fun t => hasSub t content) &&
      !pySeedTokens.any (fun t => hasSub t content) then
    deductMajor (pyScriptSt2 content) [⟨IssueType.missing_seed, 10⟩]
  else pyScriptSt2 content

/-- score_python_script's state after the docstring check. -/
def pyScriptSt4 (content : List Char) : ScorerState :=
  if check_missing_docstring content then
    deductMinor (pyScriptSt3 content) [⟨IssueType.missing_docstring, 1⟩]
  else pyScriptSt3 content

/-- QualityScorer.score_python_script; the ast.parse verdict is a parameter
(source lines 537-605). -/
def score_python_script (syntaxOk : Bool) (content : List Char) : Report :=
  if !syntaxOk then autoFailReport IssueType.syntax_error
  else
    generate_report
      { pyScriptSt4 content with score := max 0 (pyScriptSt4 content).score }

/-- score_beamer's state after its three issue loops. -/
def beamerSt3 (content : List Char) (bib : Option (List Char)) : ScorerState :=
  deductCritical
    (deductCritical
      (deductCritical initScorer
        ((check_broken_citations content bib).map
          (fun _ => ⟨IssueType.undefined_citation, 15⟩)))
      ((check_overfull_hbox_risk content).map (fun _ => ⟨IssueType.overfull_hbox, 10⟩)))
    ((check_equation_overflow content).map (fun _ => ⟨IssueType.overfull_hbox, 10⟩))

/-- QualityScorer.score_beamer; the bibliography text is a parameter, none
when neither candidate file exists (source lines 607-664). -/
def score_beamer (content : List Char) (bib : Option (List Char)) : Report :=
  if !( check_latex_syntax content).isEmpty then
    generate_report
      { score := 0,
        critical := ( check_latex_syntax content).map
          (fun _ => ⟨IssueType.compilation_failure, 100⟩),
        major := [], minor := [], auto_fail := true }
  else
    generate_report
      { beamerSt3 content bib with score := max 0 (beamerSt3 content bib).score }

/- ==========================================================================
   main: per-document outcomes and the process exit code
   ========================================================================== -/

/-- What one loop iteration of main observes for one path: the file is
missing, its extension is unsupported, it was scored, or an unexpected
exception escaped the scoring of this document. -/
inductive DocOutcome
  | missing
  | unsupported
  | scored (r : Report)
  | fault
deriving Repr

/-- The exit-code update of one iteration of main's loop (source lines
834-869): missing files and caught faults assign 1, scored documents
raise the code with max. -/
def mainStep (ec : Nat) : DocOutcome → Nat
  | DocOutcome.missing => 1
  | DocOutcome.unsupported => ec
  | DocOutcome.scored r =>
    if r.auto_fail then max ec 2
    else if r.score < commitThreshold then max ec 1
    else ec
  | DocOutcome.fault => 1

/-- The process exit status of main over the documents in order. -/
def mainExitCode (docs : List DocOutcome) : Nat := docs.foldl mainStep 0

/-- The per-document code the spec attributes to a scored document. -/
def perDocCode (r : Report) : Nat :=
  if r.auto_fail then 2 else if r.score < commitThreshold then 1 else 0

/- ==========================================================================
   Vocabulary for the statements and concrete inputs used by them
   ========================================================================== -/

/-- Total points of a list of recorded issues, as an integer. -/
def sumPts (iss : List Issue) : Int := (iss.map (fun i => (i.points : Int))).sum

/-- Total points of every issue recorded in a report. -/
def reportPts (r : Report) : Int :=
  sumPts r.critical + sumPts r.major + sumPts r.minor

/-- The scoring invariant of claim C7 for one report: the score is bounded
by 0 and 100, equals the clamped difference of 100 and the recorded points
when no auto-fail happened, and equals 0 under auto-fail. -/
def scoreOk (r : Report) : Prop :=
  0 ≤ r.score ∧ r.score ≤ 100 ∧
  (r.auto_fail = false → r.score = max 0 (100 - reportPts r)) ∧
  (r.auto_fail = true → r.score = 0)

/-- Modelled from the spec for comparison only: stripping the content after
an UNESCAPED comment marker, where a backslash escapes the character after
it.  The code's commentStrip splits at the first percent unconditionally;
this definition follows the spec's words. -/
def specStripComment : List Char → List Char
  | [] => []
  | c :: cs =>
    if c = percentCh then []
    else if c = '\\' then
      match cs with
      | d :: ds => c :: d :: specStripComment ds
      | [] => [c]
    else c :: specStripComment cs

/-- The frame flag after folding the marker updates of a list of lines. -/
def frameOpen (f0 : Bool) (ls : List (List Char)) : Bool :=
  ls.foldl (fun f l => frameFlagUpd f (commentStrip l)) f0

/-- A line whose comment-stripped content carries a frame marker. -/
def frameMarker (l : List Char) : Bool :=
  hasSub beginFrameTok (commentStrip l) || hasSub endFrameTok (commentStrip l)

/-- An environment-close token ending a fence-opened region: line 2 closes
the region that the fence on line 1 opened, so the 121-character line 3 is
never measured. -/
def c1cex : List Char :=
  "$$\n\\end\x7bequation\x7d\n".data ++ List.replicate 121 'a'

def endEqLine : List Char := "\\end\x7bequation\x7d".data

/-- A single-line fenced block with 121 characters of inner content. -/
def c2block121 : List Char := ddTok ++ List.replicate 121 'b' ++ ddTok

/-- A single-line fenced block with 120 characters of inner content. -/
def c2block120 : List Char := ddTok ++ List.replicate 120 'b' ++ ddTok

/-- A 125-character math line whose only percent is escaped. -/
def c3line : List Char :=
  List.replicate 60 'a' ++ ['\\', percentCh] ++ List.replicate 63 'b'

/-- c3line inside a fenced display block. -/
def c3cex : List Char := "$$\n".data ++ c3line ++ "\n$$".data

/-- A document citing smith2020 with a backslash command and jones2019 with
an at-sign bracket group. -/
def c6doc : List Char := "We cite \\cite\x7bsmith2020\x7d and [@jones2019].".data

/-- A bibliography declaring only smith2020. -/
def c6bib : List Char := "@article\x7bsmith2020,\n  title=\x7bX\x7d\n\x7d".data

/-- A 124-character line carrying both frame markers. -/
def c9bothLine : List Char := beginFrameTok ++ List.replicate 100 'a' ++ endFrameTok

/-- A long line that opens a frame and overflows on the same line. -/
def c9open : List Char := beginFrameTok ++ List.replicate 121 'a'

/-- An overlong line starting with an allow-listed directive. -/
def c9allowLine : List Char :=
  "  \\includegraphics".data ++ List.replicate 121 'b'

/-- A python file whose only leading content is a shebang line. -/
def c10shebang : List Char := "#!/usr/bin/env python3\nx = 1\n".data

/-- A python file starting with an ordinary comment, docstring further down. -/
def c10hash : List Char :=
  "# comment\n".data ++ tripleDQ ++ "doc".data ++ tripleDQ ++ ['\n']

/-- A beamer document with an unclosed frame environment. -/
def autoFailDoc : List Char := beginFrameTok

/- ==========================================================================
   Theorems
   ========================================================================== -/

/-- Claim C1, counterexample: a region opened by a fence IS closed by an
environment-close token.  In the fence-opened state, the line holding only
an environment-close token resets the scanner to the outside state, and on
the full input c1cex the 121-character line 3 (which the claim would place
inside the fence-opened region) is not reported. -/
theorem C1_counterexample :
    eqStep ⟨true, some MathDelim.fence, 1, []⟩ 2 endEqLine =
      ⟨false, none, 1, []⟩ ∧
    check_equation_overflow c1cex = [] := by
  exact ⟨by decide, by decide⟩

/-- Claim C1 as amended: a region opened by an environment begin-keyword is
indeed never closed by a fence delimiter (it closes exactly on an
environment-close line), but a fence-opened region closes on a fence line
OR on an environment-close line. -/
theorem C1_delim_families :
    (∀ (st : EqState) (i : Nat) (line : List Char),
        st.math_delim = some MathDelim.env → st.in_math = true →
        ((eqStep st i line).in_math = false ↔
          matchMathEnv endEnvKw (pyStrip line) = true)) ∧
    (∀ (st : EqState) (i : Nat) (line : List Char),
        st.math_delim = some MathDelim.fence → st.in_math = true →
        ((eqStep st i line).in_math = false ↔
          (hasSub ddTok (pyStrip line) = true ∨
            matchMathEnv endEnvKw (pyStrip line) = true))) := by
  constructor
  · intro st i line hd hm
    simp only [eqStep, hd, hm]
    by_cases he : matchMathEnv endEnvKw (pyStrip line) = true
    · simp [he]
    · split_ifs <;> simp_all
  · intro st i line hd hm
    simp only [eqStep, hd, hm]
    by_cases hf : hasSub ddTok (pyStrip line) = true
    · simp [hf]
    · by_cases he : matchMathEnv endEnvKw (pyStrip line) = true
      · simp [hf, he]
      · split_ifs <;> simp_all

/-- Witness for C1_delim_families at concrete states and lines. -/
theorem C1_delim_families_witness :
    (eqStep ⟨true, some MathDelim.env, 1, []⟩ 5 endEqLine).in_math = false ∧
    (eqStep ⟨true, some MathDelim.fence, 1, []⟩ 5 ddTok).in_math = false := by
  refine ⟨(C1_delim_families.1 ⟨true, some MathDelim.env, 1, []⟩ 5 endEqLine
      rfl rfl).mpr (by decide),
    (C1_delim_families.2 ⟨true, some MathDelim.fence, 1, []⟩ 5 ddTok
      rfl rfl).mpr (Or.inl (by decide))⟩

/-- Claim C2: a line with two fence markers met outside a math region is a
single-line block: the scanner measures exactly the trimmed content between
the first two markers against the 120-character threshold, reports the
line's own 1-based number on overflow, and does not enter the inside state;
in particular a 121-character inner content is flagged at line 1 and a
120-character one is not. -/
theorem C2_single_line_fence :
    (∀ (st : EqState) (i : Nat) (line : List Char),
        st.in_math = false → st.math_delim ≠ some MathDelim.env →
        hasSub ddTok (pyStrip line) = true →
        2 ≤ countSub ddTok (pyStrip line) →
        (eqStep st i line).overflows = st.overflows ++
          (if mathThreshold < (pyStrip (splitIdx1 ddTok (pyStrip line))).length
            then [i] else []) ∧
        (eqStep st i line).in_math = false ∧
        (eqStep st i line).math_delim = none) ∧
    check_equation_overflow c2block121 = [1] ∧
    check_equation_overflow c2block120 = [] := by
  refine ⟨?_, by decide, by decide⟩
  intro st i line h1 h2 h3 h4
  have hbeq : (st.math_delim == some MathDelim.env) = false := by
    simpa using h2
  simp only [eqStep, h1, h3, hbeq]
  simp [h4]

/-- Witness for the universally quantified part of C2_single_line_fence. -/
theorem C2_single_line_fence_witness :
    (eqStep ⟨false, none, 0, []⟩ 1 c2block121).overflows = [1] ∧
    (eqStep ⟨false, none, 0, []⟩ 1 c2block121).in_math = false := by
  have h := C2_single_line_fence.1 ⟨false, none, 0, []⟩ 1 c2block121
    rfl (by decide) (by decide) (by decide)
  exact ⟨by rw [h.1]; decide, h.2.1⟩

/-- Claim C3, counterexample: comment stripping is NOT restricted to
unescaped markers.  Line 2 of c3cex has 125 characters of code and only an
escaped percent, so under the claim it would be reported; the code splits
at the escaped percent and reports nothing.  specStripComment is the
spec-described unescaped-marker stripping, shown to differ from the code's
commentStrip on this line. -/
theorem C3_counterexample :
    check_equation_overflow c3cex = [] ∧
    commentStrip c3line ≠ specStripComment c3line ∧
    mathThreshold < (pyStrip (specStripComment c3line)).length := by
  exact ⟨by decide, by decide, by decide⟩

/-- Claim C3 as amended: for a line measured while inside a math region,
the content after the FIRST comment marker — escaped or not — is stripped,
and the line is reported at its own 1-based number exactly when the
remaining trimmed content exceeds 120 characters. -/
theorem C3_comment_strip (st : EqState) (i : Nat) (line : List Char)
    (hm : st.in_math = true)
    (h1 : (hasSub ddTok (pyStrip line) &&
      !(st.math_delim == some MathDelim.env)) = false)
    (h3 : matchMathEnv endEnvKw (pyStrip line) = false) :
    (eqStep st i line).overflows = st.overflows ++
      (if mathThreshold < (pyStrip (List.takeWhile (fun c => c != '%') line)).length
        then [i] else []) := by
  simp only [eqStep, h1, h3, hm, commentStrip]
  split_ifs <;> simp_all

/-- Witness for C3_comment_strip: a 125-character comment-free line inside
an environment region is reported; c3line (whose code shrinks to 61
characters at the escaped percent) is not. -/
theorem C3_comment_strip_witness :
    (eqStep ⟨true, some MathDelim.env, 1, []⟩ 2 (List.replicate 125 'a')).overflows
      = [2] ∧
    (eqStep ⟨true, some MathDelim.env, 1, []⟩ 2 c3line).overflows = [] := by
  constructor
  · have h := C3_comment_strip ⟨true, some MathDelim.env, 1, []⟩ 2
      (List.replicate 125 'a') rfl (by decide) (by decide)
    rw [h]; decide
  · have h := C3_comment_strip ⟨true, some MathDelim.env, 1, []⟩ 2
      c3line rfl (by decide) (by decide)
    rw [h]; decide

/-- Claim C10: check_missing_docstring flags exactly the files whose
left-stripped content starts with none of the two triple quotes and the
shebang marker; a shebang-only file is never flagged, a file opening with
an ordinary hash comment is flagged even though a docstring follows. -/
theorem C10_missing_docstring :
    (∀ content : List Char, check_missing_docstring content =
        !(tripleDQ.isPrefixOf (pyLStrip content) ||
          tripleSQ.isPrefixOf (pyLStrip content) ||
          shebangTok.isPrefixOf (pyLStrip content))) ∧
    check_missing_docstring c10shebang = false ∧
    check_missing_docstring c10hash = true := by
  exact ⟨fun content => rfl, by decide, by decide⟩

/-- Claim C5: any non-empty diagnostic sequence from the environment balance
checker forces auto-fail: the beamer report scores 0 with status FAIL, its
critical list holds exactly one compilation_failure issue per diagnostic,
and no citation, overfull-hbox or equation-overflow issue appears (the
major and minor lists are empty and every critical issue is the structural
compilation_failure one). -/
theorem C5_beamer_structural_autofail (content : List Char)
    (bib : Option (List Char)) (h : check_latex_syntax content ≠ []) :
    (score_beamer content bib).auto_fail = true ∧
    (score_beamer content bib).score = 0 ∧
    (score_beamer content bib).status = Status.FAIL ∧
    (score_beamer content bib).critical.length =
      ( check_latex_syntax content).length ∧
    (∀ iss ∈ (score_beamer content bib).critical,
      iss = ⟨IssueType.compilation_failure, 100⟩) ∧
    (score_beamer content bib).major = [] ∧
    (score_beamer content bib).minor = [] := by
  have he : ( check_latex_syntax content).isEmpty = false := by
    cases hc : check_latex_syntax content with
    | nil => exact absurd hc h
    | cons a t => rfl
  simp only [score_beamer, he, Bool.not_false, if_pos]
  refine ⟨rfl, rfl, rfl, by simp [generate_report], ?_, rfl, rfl⟩
  intro iss hiss
  simp only [generate_report] at hiss
  obtain ⟨d, _, hd⟩ := List.mem_map.mp hiss
  exact hd.symm

/-- Witness for C5_beamer_structural_autofail on a document whose only
content is an unclosed frame environment. -/
theorem C5_beamer_structural_autofail_witness :
    (score_beamer autoFailDoc none).auto_fail = true ∧
    (score_beamer autoFailDoc none).score = 0 ∧
    (score_beamer autoFailDoc none).status = Status.FAIL ∧
    (score_beamer autoFailDoc none).critical.length = 1 ∧
    (score_beamer autoFailDoc none).major = [] := by
  have h := C5_beamer_structural_autofail autoFailDoc none (by decide)
  refine ⟨h.1, h.2.1, h.2.2.1, ?_, h.2.2.2.2.2.1⟩
  rw [h.2.2.2.1]
  decide

theorem pairwise_pushes (names : List (List Char)) (i : Nat) :
    List.Pairwise (fun a b : List Char × Nat => a.2 ≤ b.2)
      (names.map (fun n => (n, i))) := by
  induction names with
  | nil => simp
  | cons a t ih =>
    simp only [List.map_cons, List.pairwise_cons]
    refine ⟨?_, ih⟩
    intro b hb
    obtain ⟨n, _, hn⟩ := List.mem_map.mp hb
    simp [← hn]

theorem handleEnd_stack_sublist (st : LatexState) (i : Nat) (n : List Char) :
    (handleEnd st i n).env_stack.Sublist st.env_stack := by
  unfold handleEnd
  cases h : st.env_stack.getLast? with
  | none => exact List.Sublist.refl _
  | some e =>
    by_cases ht : e.1 = n <;> simp [ht]
    exact List.dropLast_sublist _

theorem foldl_handleEnd_stack_sublist (names : List (List Char)) (i : Nat) :
    ∀ st : LatexState,
      ((names.foldl (fun s n => handleEnd s i n) st).env_stack).Sublist
        st.env_stack := by
  induction names with
  | nil => intro st; exact List.Sublist.refl _
  | cons a t ih =>
    intro st
    exact (ih (handleEnd st i a)).trans (handleEnd_stack_sublist st i a)

theorem latexLineStep_inv (st : LatexState) (i : Nat) (line : List Char)
    (hb : ∀ e ∈ st.env_stack, e.2 ≤ i)
    (hp : List.Pairwise (fun a b : List Char × Nat => a.2 ≤ b.2) st.env_stack) :
    (∀ e ∈ (latexLineStep st i line).env_stack, e.2 ≤ i + 1) ∧
    List.Pairwise (fun a b : List Char × Nat => a.2 ≤ b.2)
      (latexLineStep st i line).env_stack := by
  have hmid : ∀ e ∈ st.env_stack ++
      (envTokens beginAnyKw (commentStrip line)).map (fun n => (n, i)), e.2 ≤ i := by
    intro e he
    rcases List.mem_append.mp he with h | h
    · exact hb e h
    · obtain ⟨n, _, hn⟩ := List.mem_map.mp h
      simp [← hn]
  have hmidp : List.Pairwise (fun a b : List Char × Nat => a.2 ≤ b.2)
      (st.env_stack ++
        (envTokens beginAnyKw (commentStrip line)).map (fun n => (n, i))) := by
    refine List.pairwise_append.mpr ⟨hp, pairwise_pushes _ _, ?_⟩
    intro a ha b hb2
    obtain ⟨n, _, hn⟩ := List.mem_map.mp hb2
    have := hb a ha
    simp [← hn]
    omega
  have hsub := foldl_handleEnd_stack_sublist
    (envTokens endAnyKw (commentStrip line)) i
    { st with env_stack := st.env_stack ++
        (envTokens beginAnyKw (commentStrip line)).map (fun n => (n, i)) }
  constructor
  · intro e he
    have : e.2 ≤ i := hmid e (hsub.subset he)
    omega
  · exact hmidp.sublist hsub

theorem latexScan_inv (ls : List (List Char)) :
    ∀ (i : Nat) (st : LatexState),
      (∀ e ∈ st.env_stack, e.2 ≤ i) →
      List.Pairwise (fun a b : List Char × Nat => a.2 ≤ b.2) st.env_stack →
      List.Pairwise (fun a b : List Char × Nat => a.2 ≤ b.2)
        (latexScan i st ls).env_stack := by
  induction ls with
  | nil => intro i st _ hp; exact hp
  | cons l t ih =>
    intro i st hb hp
    have h := latexLineStep_inv st i l hb hp
    exact ih (i + 1) (latexLineStep st i l) h.1 h.2

/-- Claim C4: the environment balance checker follows stack discipline.  A
close token matching the stack's top pops silently; one differing from a
non-empty stack's top emits one mismatch diagnostic carrying the expected
(top) name and its original open line while leaving the stack unchanged; a
close token at an empty stack emits one orphan-close diagnostic; and after
the scan the result appends exactly one unclosed diagnostic per remaining
stack entry, in stack order, which is the order the entries were opened
(their open lines are non-decreasing). -/
theorem C4_stack_discipline :
    (∀ (st : LatexState) (i : Nat) (name top : List Char) (openLine : Nat),
        st.env_stack.getLast? = some (top, openLine) → top = name →
        (handleEnd st i name).env_stack = st.env_stack.dropLast ∧
        (handleEnd st i name).diags = st.diags) ∧
    (∀ (st : LatexState) (i : Nat) (name top : List Char) (openLine : Nat),
        st.env_stack.getLast? = some (top, openLine) → top ≠ name →
        (handleEnd st i name).env_stack = st.env_stack ∧
        (handleEnd st i name).diags =
          st.diags ++ [LatexDiag.mismatch i name top openLine]) ∧
    (∀ (st : LatexState) (i : Nat) (name : List Char),
        st.env_stack = [] →
        (handleEnd st i name).env_stack = [] ∧
        (handleEnd st i name).diags = st.diags ++ [LatexDiag.orphanClose i name]) ∧
    (∀ content : List Char,
        check_latex_syntax content =
          (latexScan 1 ⟨[], []⟩ (pySplitCh '\n' content)).diags ++
            (latexScan 1 ⟨[], []⟩ (pySplitCh '\n' content)).env_stack.map
              (fun e => LatexDiag.unclosed e.2 e.1)) ∧
    (∀ content : List Char,
        List.Pairwise (fun a b : List Char × Nat => a.2 ≤ b.2)
          ((latexScan 1 ⟨[], []⟩ (pySplitCh '\n' content)).env_stack)) := by
  refine ⟨?_, ?_, ?_, fun content => rfl, ?_⟩
  · intro st i name top openLine hl ht
    unfold handleEnd
    rw [hl]
    simp [ht]
  · intro st i name top openLine hl ht
    unfold handleEnd
    rw [hl]
    simp [ht]
  · intro st i name hl
    unfold handleEnd
    have : st.env_stack.getLast? = none := by simp [hl]
    rw [this]
    exact ⟨hl, rfl⟩
  · intro content
    exact latexScan_inv _ 1 ⟨[], []⟩ (by simp) (by simp)

/-- Witness for C4_stack_discipline: a matching close pops silently, a
mismatching close records the expected top and its open line without
popping, a close at an empty stack records an orphan diagnostic. -/
theorem C4_stack_discipline_witness :
    (handleEnd ⟨[(['a'], 1)], []⟩ 3 ['a']).env_stack = [] ∧
    (handleEnd ⟨[(['a'], 1)], []⟩ 3 ['a']).diags = [] ∧
    (handleEnd ⟨[(['a'], 1)], []⟩ 3 ['b']).env_stack = [(['a'], 1)] ∧
    (handleEnd ⟨[(['a'], 1)], []⟩ 3 ['b']).diags =
      [LatexDiag.mismatch 3 ['b'] ['a'] 1] ∧
    (handleEnd ⟨[], []⟩ 3 ['a']).diags = [LatexDiag.orphanClose 3 ['a']] := by
  have h1 := C4_stack_discipline.1 ⟨[(['a'], 1)], []⟩ 3 ['a'] ['a'] 1 (by decide) rfl
  have h2 := C4_stack_discipline.2.1 ⟨[(['a'], 1)], []⟩ 3 ['b'] ['a'] 1
    (by decide) (by decide)
  have h3 := C4_stack_discipline.2.2.1 ⟨[], []⟩ 3 ['a'] rfl
  refine ⟨by rw [h1.1]; rfl, by rw [h1.2], by rw [h2.1], by rw [h2.2]; rfl,
    by rw [h3.2]; rfl⟩

theorem filter_not_contains_toFinset (cited bk : List (List Char)) :
    (cited.filter (fun k => !(bk.contains k))).toFinset =
      cited.toFinset \ bk.toFinset := by
  ext k
  simp only [List.mem_toFinset, Finset.mem_sdiff, List.mem_filter,
    List.contains, List.elem_eq_mem]
  simp

/-- Claim C6: both citation passes return exactly their cited keys minus the
bibliography keys (as sets), both return every cited key they found when the
bibliography file is absent, and on the concrete two-syntax document against
a bibliography declaring only smith2020 the two extraction passes union and
de-duplicate to exactly the jones2019 key. -/
theorem C6_citation_resolver :
    (∀ (content b : List Char),
        (check_broken_citations content (some b)).toFinset =
          (latexCitedKeys content).toFinset \ (bibKeys b).toFinset) ∧
    (∀ content : List Char,
        check_broken_citations content none = latexCitedKeys content) ∧
    (∀ (content b : List Char),
        (check_quarto_citations content (some b)).toFinset =
          (quartoCitedKeys content).toFinset \ (bibKeys b).toFinset) ∧
    (∀ content : List Char,
        check_quarto_citations content none = quartoCitedKeys content) ∧
    check_broken_citations c6doc (some c6bib) = [] ∧
    check_quarto_citations c6doc (some c6bib) = ["jones2019".data] ∧
    (check_broken_citations c6doc (some c6bib) ++
        check_quarto_citations c6doc (some c6bib)).dedup = ["jones2019".data] := by
  refine ⟨?_, fun content => rfl, ?_, ?_, by decide, by decide, by decide⟩
  · intro content b
    exact filter_not_contains_toFinset (latexCitedKeys content) (bibKeys b)
  · intro content b
    by_cases he : (quartoCitedKeys content).isEmpty = true
    · have hc : quartoCitedKeys content = [] := by simpa using he
      simp [check_quarto_citations, he, hc]
    · simp only [check_quarto_citations]
      rw [if_neg he]
      exact filter_not_contains_toFinset (quartoCitedKeys content) (bibKeys b)
  · intro content
    by_cases he : (quartoCitedKeys content).isEmpty = true
    · have hc : quartoCitedKeys content = [] := by simpa using he
      simp [check_quarto_citations, he, hc]
    · simp only [check_quarto_citations]
      rw [if_neg he]

theorem sumPts_nonneg (iss : List Issue) : 0 ≤ sumPts iss := by
  induction iss with
  | nil => simp [sumPts]
  | cons a t ih =>
    simp only [sumPts, List.map_cons, List.sum_cons] at *
    positivity

theorem sumPts_append (a b : List Issue) :
    sumPts (a ++ b) = sumPts a + sumPts b := by
  simp [sumPts]

theorem deductCritical_spec (iss : List Issue) :
    ∀ st : ScorerState, deductCritical st iss =
      { score := st.score - sumPts iss, critical := st.critical ++ iss,
        major := st.major, minor := st.minor, auto_fail := st.auto_fail } := by
  induction iss with
  | nil => intro st; simp [deductCritical, sumPts]
  | cons a t ih =>
    intro st
    show deductCritical
      { st with critical := st.critical ++ [a], score := st.score - a.points } t = _
    rw [ih]
    simp [sumPts]
    ring

theorem deductMajor_spec (iss : List Issue) :
    ∀ st : ScorerState, deductMajor st iss =
      { score := st.score - sumPts iss, critical := st.critical,
        major := st.major ++ iss, minor := st.minor, auto_fail := st.auto_fail } := by
  induction iss with
  | nil => intro st; simp [deductMajor, sumPts]
  | cons a t ih =>
    intro st
    show deductMajor
      { st with major := st.major ++ [a], score := st.score - a.points } t = _
    rw [ih]
    simp [sumPts]
    ring

theorem deductMinor_spec (iss : List Issue) :
    ∀ st : ScorerState, deductMinor st iss =
      { score := st.score - sumPts iss, critical := st.critical,
        major := st.major, minor := st.minor ++ iss, auto_fail := st.auto_fail } := by
  induction iss with
  | nil => intro st; simp [deductMinor, sumPts]
  | cons a t ih =>
    intro st
    show deductMinor
      { st with minor := st.minor ++ [a], score := st.score - a.points } t = _
    rw [ih]
    simp [sumPts]
    ring

/-- The accumulation invariant carried along a scorer's issue loops. -/
def accumOk (st : ScorerState) : Prop :=
  st.auto_fail = false ∧
  st.score = 100 - (sumPts st.critical + sumPts st.major + sumPts st.minor)

theorem accumOk_init : accumOk initScorer := by
  constructor <;> simp [initScorer, sumPts]

theorem accumOk_deductCritical (st : ScorerState) (iss : List Issue)
    (h : accumOk st) : accumOk (deductCritical st iss) := by
  obtain ⟨ha, hs⟩ := h
  rw [deductCritical_spec]
  refine ⟨ha, ?_⟩
  simp only [sumPts_append]
  omega

theorem accumOk_deductMajor (st : ScorerState) (iss : List Issue)
    (h : accumOk st) : accumOk (deductMajor st iss) := by
  obtain ⟨ha, hs⟩ := h
  rw [deductMajor_spec]
  refine ⟨ha, ?_⟩
  simp only [sumPts_append]
  omega

theorem accumOk_deductMinor (st : ScorerState) (iss : List Issue)
    (h : accumOk st) : accumOk (deductMinor st iss) := by
  obtain ⟨ha, hs⟩ := h
  rw [deductMinor_spec]
  refine ⟨ha, ?_⟩
  simp only [sumPts_append]
  omega

theorem scoreOk_final (st : ScorerState) (h : accumOk st) :
    scoreOk (generate_report { st with score := max 0 st.score }) := by
  obtain ⟨ha, hs⟩ := h
  have h1 := sumPts_nonneg st.critical
  have h2 := sumPts_nonneg st.major
  have h3 := sumPts_nonneg st.minor
  unfold scoreOk generate_report reportPts
  simp only [ha]
  refine ⟨le_max_left 0 _, ?_, fun _ => by rw [hs], by intro hc; cases hc⟩
  rw [max_le_iff]
  omega

theorem scoreOk_autoFailReport (t : IssueType) : scoreOk (autoFailReport t) := by
  unfold scoreOk autoFailReport generate_report reportPts
  norm_num

theorem accumOk_iteCritical (c : Prop) [Decidable c] (st : ScorerState)
    (iss : List Issue) (h : accumOk st) :
    accumOk (if c then deductCritical st iss else st) := by
  split_ifs
  · exact accumOk_deductCritical _ _ h
  · exact h

theorem accumOk_iteMajor (c : Prop) [Decidable c] (st : ScorerState)
    (iss : List Issue) (h : accumOk st) :
    accumOk (if c then deductMajor st iss else st) := by
  split_ifs
  · exact accumOk_deductMajor _ _ h
  · exact h

theorem accumOk_iteMinor (c : Prop) [Decidable c] (st : ScorerState)
    (iss : List Issue) (h : accumOk st) :
    accumOk (if c then deductMinor st iss else st) := by
  split_ifs
  · exact accumOk_deductMinor _ _ h
  · exact h

theorem accumOk_quartoSt3 (content : List Char) (bib : Option (List Char))
    (html : Option (List Char)) : accumOk (quartoSt3 content bib html) := by
  have h2 : accumOk (quartoSt2 content bib) := by
    unfold quartoSt2
    exact accumOk_deductCritical _ _ (accumOk_deductCritical _ _ accumOk_init)
  cases html with
  | none => exact h2
  | some h =>
    unfold quartoSt3
    exact accumOk_iteCritical _ _ _ h2

theorem accumOk_rScriptSt2 (content : List Char) : accumOk (rScriptSt2 content) := by
  have h1 : accumOk (rScriptSt1 content) := by
    unfold rScriptSt1
    exact accumOk_deductCritical _ _ accumOk_init
  unfold rScriptSt2
  exact accumOk_iteMajor _ _ _ h1

theorem accumOk_pyScriptSt4 (content : List Char) : accumOk (pyScriptSt4 content) := by
  have h2 : accumOk (pyScriptSt2 content) := by
    unfold pyScriptSt2
    exact accumOk_deductCritical _ _ (accumOk_deductCritical _ _ accumOk_init)
  have h3 : accumOk (pyScriptSt3 content) := by
    unfold pyScriptSt3
    exact accumOk_iteMajor _ _ _ h2
  unfold pyScriptSt4
  exact accumOk_iteMinor _ _ _ h3

theorem accumOk_beamerSt3 (content : List Char) (bib : Option (List Char)) :
    accumOk (beamerSt3 content bib) := by
  unfold beamerSt3
  exact accumOk_deductCritical _ _
    (accumOk_deductCritical _ _ (accumOk_deductCritical _ _ accumOk_init))

/-- Claim C7: every scoring method yields a report with a score between 0
and 100; with no auto-fail the score is exactly the clamped difference of
100 and the sum of the recorded issues' points, and under auto-fail the
score is 0. -/
theorem C7_score_invariant :
    (∀ (compiles : Bool) (content : List Char) (bib : Option (List Char))
        (html : Option (List Char)),
      scoreOk (score_quarto compiles content bib html)) ∧
    (∀ (syntaxOk : Bool) (content : List Char),
      scoreOk (score_r_script syntaxOk content)) ∧
    (∀ (syntaxOk : Bool) (content : List Char),
      scoreOk (score_python_script syntaxOk content)) ∧
    (∀ (content : List Char) (bib : Option (List Char)),
      scoreOk (score_beamer content bib)) := by
  refine ⟨?_, ?_, ?_, ?_⟩
  · intro compiles content bib html
    cases compiles with
    | false => exact scoreOk_autoFailReport _
    | true => exact scoreOk_final _ (accumOk_quartoSt3 content bib html)
  · intro syntaxOk content
    cases syntaxOk with
    | false => exact scoreOk_autoFailReport _
    | true => exact scoreOk_final _ (accumOk_rScriptSt2 content)
  · intro syntaxOk content
    cases syntaxOk with
    | false => exact scoreOk_autoFailReport _
    | true => exact scoreOk_final _ (accumOk_pyScriptSt4 content)
  · intro content bib
    unfold score_beamer
    split
    · refine ⟨?_, ?_, ?_, fun _ => rfl⟩
      · norm_num [generate_report]
      · norm_num [generate_report]
      · intro hfalse
        simp [generate_report] at hfalse
    · exact scoreOk_final _ (accumOk_beamerSt3 content bib)

/-- Witness for the implications inside C7_score_invariant: a clean beamer
document's score equals the clamped deduction formula, and a structurally
broken one scores 0. -/
theorem C7_score_invariant_witness :
    (score_beamer ['x'] none).score =
      max 0 (100 - reportPts (score_beamer ['x'] none)) ∧
    (score_beamer autoFailDoc none).score = 0 := by
  refine ⟨(C7_score_invariant.2.2.2 ['x'] none).2.2.1 (by decide),
    (C7_score_invariant.2.2.2 autoFailDoc none).2.2.2 (by decide)⟩

theorem mainStep_scored (ec : Nat) (r : Report) :
    mainStep ec (DocOutcome.scored r) = max ec (perDocCode r) := by
  simp only [mainStep, perDocCode]
  split_ifs <;> omega

theorem mainFold_scored (rs : List Report) :
    ∀ ec : Nat, (rs.map DocOutcome.scored).foldl mainStep ec =
      max ec (if rs.any (fun r => r.auto_fail) then 2
        else if rs.any (fun r => decide (r.score < commitThreshold)) then 1
        else 0) := by
  induction rs with
  | nil => intro ec; simp
  | cons r t ih =>
    intro ec
    simp only [List.map_cons, List.foldl_cons, mainStep_scored, List.any_cons]
    rw [ih]
    by_cases h1 : r.auto_fail = true <;>
      by_cases h2 : (t.any fun r => r.auto_fail) = true <;>
      by_cases h3 : r.score < commitThreshold <;>
      by_cases h4 : (t.any fun r => decide (r.score < commitThreshold)) = true <;>
      simp [h1, h2, h3, h4, perDocCode] <;> omega

/-- Claim C8, counterexample: a missing file or a caught fault assigns exit
code 1 unconditionally, so a document that auto-failed earlier does not
produce the claimed worst code 2.  Here the first document auto-fails, the
second loop iteration faults, and main exits with 1 instead of 2. -/
theorem C8_counterexample :
    (score_beamer autoFailDoc none).auto_fail = true ∧
    mainExitCode
      [DocOutcome.scored (score_beamer autoFailDoc none), DocOutcome.fault] = 1 := by
  exact ⟨by decide, by decide⟩

/-- Claim C8 as amended: over scored documents the worst per-document code
wins (2 for any auto-fail, else 1 for any score below the commit threshold,
else 0), but a missing file and a caught internal fault each set the exit
code to exactly 1 at their iteration, overwriting any worse code
established earlier; the loop continues afterwards. -/
theorem C8_exit_codes :
    (∀ rs : List Report,
        mainExitCode (rs.map DocOutcome.scored) =
          if rs.any (fun r => r.auto_fail) then 2
          else if rs.any (fun r => decide (r.score < commitThreshold)) then 1
          else 0) ∧
    (∀ docs : List DocOutcome, mainExitCode (docs ++ [DocOutcome.missing]) = 1) ∧
    (∀ docs : List DocOutcome, mainExitCode (docs ++ [DocOutcome.fault]) = 1) := by
  refine ⟨?_, ?_, ?_⟩
  · intro rs
    unfold mainExitCode
    rw [mainFold_scored]
    simp
  · intro docs
    unfold mainExitCode
    rw [List.foldl_append]
    rfl
  · intro docs
    unfold mainExitCode
    rw [List.foldl_append]
    rfl

theorem hboxStep_in_frame (st : HboxState) (i : Nat) (line : List Char) :
    (hboxStep st i line).in_frame = frameFlagUpd st.in_frame (commentStrip line) := by
  simp only [hboxStep]
  split_ifs <;> rfl

theorem hboxStep_issues (st : HboxState) (i : Nat) (line : List Char) :
    (hboxStep st i line).issues = st.issues ∨
      ((hboxStep st i line).issues = st.issues ++ [i] ∧
        frameFlagUpd st.in_frame (commentStrip line) = true) := by
  simp only [hboxStep]
  split_ifs with h1 h2 h3
  · exact Or.inl rfl
  · exact Or.inl rfl
  · have h1a := h1
    simp only [Bool.and_eq_true] at h1a
    exact Or.inr ⟨rfl, h1a.1⟩
  · exact Or.inl rfl

theorem frameOpen_cons (f0 : Bool) (l : List Char) (ls : List (List Char)) :
    frameOpen f0 (l :: ls) = frameOpen (frameFlagUpd f0 (commentStrip l)) ls := rfl

theorem hboxScan_mem (ls : List (List Char)) :
    ∀ (i : Nat) (st : HboxState) (m : Nat), m ∈ (hboxScan i st ls).issues →
      m ∈ st.issues ∨
        (i ≤ m ∧ m - i < ls.length ∧
          frameOpen st.in_frame (ls.take (m - i + 1)) = true) := by
  induction ls with
  | nil => intro i st m hm; exact Or.inl hm
  | cons l t ih =>
    intro i st m hm
    rcases ih (i + 1) (hboxStep st i l) m hm with h | ⟨h1, h2, h3⟩
    · rcases hboxStep_issues st i l with he | ⟨he, hf⟩
      · rw [he] at h
        exact Or.inl h
      · rw [he] at h
        rcases List.mem_append.mp h with h' | h'
        · exact Or.inl h'
        · have hm_eq : m = i := by simpa using h'
          subst hm_eq
          right
          refine ⟨le_refl m, by simp, ?_⟩
          have ht : (l :: t).take (m - m + 1) = [l] := by simp
          rw [ht]
          simpa [frameOpen] using hf
    · right
      refine ⟨by omega, by simp; omega, ?_⟩
      have hidx : m - i + 1 = (m - (i + 1) + 1) + 1 := by omega
      rw [hidx, List.take_succ_cons, frameOpen_cons, ← hboxStep_in_frame st i l]
      exact h3

theorem frameOpen_eq_marker (ls : List (List Char)) :
    ∀ f0 : Bool, frameOpen f0 ls =
      (match (ls.filter frameMarker).getLast? with
       | some b => hasSub beginFrameTok (commentStrip b)
       | none => f0) := by
  induction ls with
  | nil => intro f0; rfl
  | cons l t ih =>
    intro f0
    rw [frameOpen_cons, ih]
    by_cases hm : frameMarker l = true
    · rw [List.filter_cons_of_pos hm]
      cases hft : t.filter frameMarker with
      | nil =>
        simp only [List.getLast?_nil, List.getLast?_singleton]
        by_cases hb : hasSub beginFrameTok (commentStrip l) = true
        · simp [frameFlagUpd, hb]
        · have he : hasSub endFrameTok (commentStrip l) = true := by
            unfold frameMarker at hm
            simp only [Bool.or_eq_true] at hm
            tauto
          simp [frameFlagUpd, hb, he]
      | cons x xs =>
        rw [List.getLast?_cons_cons]
        cases hgl : (x :: xs).getLast? with
        | none => exact absurd hgl (by simp)
        | some b => rfl
    · rw [List.filter_cons_of_neg (by simpa using hm)]
      have hupd : frameFlagUpd f0 (commentStrip l) = f0 := by
        have hb := hm
        unfold frameMarker at hb
        simp only [Bool.or_eq_true, not_or] at hb
        unfold frameFlagUpd
        rw [if_neg (by simpa using hb.1), if_neg (by simpa using hb.2)]
      rw [hupd]

theorem filter_getLast_split (p : List Char → Bool) (l : List (List Char)) :
    ∀ b, (l.filter p).getLast? = some b →
      ∃ l1 l2, l = l1 ++ b :: l2 ∧ ∀ x ∈ l2, p x = false := by
  induction l with
  | nil => intro b h; simp at h
  | cons c t ih =>
    intro b h
    by_cases hc : p c = true
    · rw [List.filter_cons_of_pos hc] at h
      cases hft : t.filter p with
      | nil =>
        rw [hft] at h
        simp at h
        subst h
        refine ⟨[], t, rfl, ?_⟩
        intro x hx
        have := List.filter_eq_nil_iff.mp hft x hx
        simpa using this
      | cons x xs =>
        rw [hft, List.getLast?_cons_cons, ← hft] at h
        obtain ⟨l1, l2, heq, hall⟩ := ih b h
        exact ⟨c :: l1, l2, by rw [heq]; rfl, hall⟩
    · rw [List.filter_cons_of_neg (by simpa using hc)] at h
      obtain ⟨l1, l2, heq, hall⟩ := ih b h
      exact ⟨c :: l1, l2, by rw [heq]; rfl, hall⟩

/-- Claim C9, counterexample: a line containing an end-frame marker CAN be
reported when it also contains a begin-frame marker, because the if/elif
marker tracking lets the begin branch win; the single 124-character line
carrying both markers is reported at line 1. -/
theorem C9_counterexample :
    check_overfull_hbox_risk c9bothLine = [1] ∧
    hasSub endFrameTok (commentStrip c9bothLine) = true := by
  exact ⟨by decide, by decide⟩

/-- Claim C9 as amended: a line whose comment-stripped content contains the
end-frame marker and not the begin-frame marker closes the flag and is
never itself reported; a line matching the allow-list directive regex is
never reported; and every reported line number m points at a take-m prefix
of the lines that ends in an open frame: some line at or before m contains
the begin-frame marker in comment-stripped content and every later line in
the prefix containing the end-frame marker also contains the begin-frame
marker (on lines carrying both, the begin branch wins). -/
theorem C9_frame_scope :
    (∀ (st : HboxState) (i : Nat) (line : List Char),
        hasSub endFrameTok (commentStrip line) = true →
        hasSub beginFrameTok (commentStrip line) = false →
        hboxStep st i line = { in_frame := false, issues := st.issues }) ∧
    (∀ (st : HboxState) (i : Nat) (line : List Char),
        allowListMatch (commentStrip line) = true →
        (hboxStep st i line).issues = st.issues) ∧
    (∀ (content : List Char) (m : Nat), m ∈ check_overfull_hbox_risk content →
        1 ≤ m ∧
        ∃ l1 b l2, (pySplitCh '\n' content).take m = l1 ++ b :: l2 ∧
          hasSub beginFrameTok (commentStrip b) = true ∧
          ∀ x ∈ l2, hasSub endFrameTok (commentStrip x) = true →
            hasSub beginFrameTok (commentStrip x) = true) := by
  refine ⟨?_, ?_, ?_⟩
  · intro st i line hend hbeg
    have hf : frameFlagUpd st.in_frame (commentStrip line) = false := by
      unfold frameFlagUpd
      rw [if_neg (by simp [hbeg]), if_pos hend]
    simp only [hboxStep, hf]
    simp
  · intro st i line hallow
    simp only [hboxStep]
    split_ifs with h1 h2
    · rfl
    · rfl
    · rfl
  · intro content m hm
    rcases hboxScan_mem (pySplitCh '\n' content) 1 ⟨false, []⟩ m hm with h | ⟨h1, _, h3⟩
    · simp at h
    · refine ⟨h1, ?_⟩
      have hm1 : m - 1 + 1 = m := by omega
      rw [hm1] at h3
      rw [frameOpen_eq_marker] at h3
      cases hgl : (((pySplitCh '\n' content).take m).filter frameMarker).getLast? with
      | none => rw [hgl] at h3; cases h3
      | some b =>
        rw [hgl] at h3
        obtain ⟨l1, l2, heq, hall⟩ := filter_getLast_split frameMarker _ b hgl
        refine ⟨l1, b, l2, heq, h3, ?_⟩
        intro x hx hex
        have hmx := hall x hx
        unfold frameMarker at hmx
        simp only [Bool.or_eq_false_iff] at hmx
        rw [hex] at hmx
        exact absurd hmx.2 (by simp)

/-- Witness for C9_frame_scope: the end-frame-only line closes the flag
without reporting, the overlong allow-listed line is not reported, and the
reported first line of the single-line overflowing frame opener admits the
required split. -/
theorem C9_frame_scope_witness :
    hboxStep ⟨true, []⟩ 7 endFrameTok = { in_frame := false, issues := [] } ∧
    (hboxStep ⟨true, []⟩ 7 c9allowLine).issues = [] ∧
    (1 ≤ 1 ∧
      ∃ l1 b l2, (pySplitCh '\n' c9open).take 1 = l1 ++ b :: l2 ∧
        hasSub beginFrameTok (commentStrip b) = true ∧
        ∀ x ∈ l2, hasSub endFrameTok (commentStrip x) = true →
          hasSub beginFrameTok (commentStrip x) = true) := by
  refine ⟨?_, ?_, ?_⟩
  · exact C9_frame_scope.1 ⟨true, []⟩ 7 endFrameTok (by decide) (by decide)
  · exact C9_frame_scope.2.1 ⟨true, []⟩ 7 c9allowLine (by decide)
  · exact C9_frame_scope.2.2 c9open 1 (by decide)
